import Mathlib

/-!
# Verification of the diabetes report pipeline

A shallow embedding of the retrieval-augmented report-generation core of the
repository (`src/agents/report_orchestrator.py`, `src/agents/pdf_parser.py`,
`src/rag/retriever.py`, `src/rag/index_builder.py`, `src/utils/formatters.py`),
together with theorems settling the frozen claims about it.

Python dictionaries that are shared and mutated in place (the patient-intake
dicts flowing through `merge_data_sources` and `normalize_patient_data`) are
modelled with an explicit heap: a dict value is a list of key/value pairs, a
heap is a list of dicts, and a Python reference to a dict is a heap address.
Numeric values are modelled as rationals.  External effects (OpenAI calls,
`json.loads` of model output, FAISS file reads/writes) are passed in as
oracle parameters of `Except`/`Bool` type.
-/

namespace DiabetesReport

/-! ## Python value / heap model -/

/-- A Python value as stored inside a patient-data dictionary.
Dictionaries are always heap-allocated and referred to by address (`ref`),
mirroring Python's reference semantics; `none_` is Python `None`. -/
inductive PVal where
  | none_ : PVal
  | num : ℚ → PVal
  | str : String → PVal
  | ref : Nat → PVal
  | listv : List PVal → PVal

/-- A Python dict: insertion-ordered key/value pairs with unique keys. -/
abbrev Dict := List (String × PVal)

/-- A heap of dictionaries; an address is an index into the list. -/
abbrev Heap := List Dict

/-- `d[k]` lookup (first matching key). -/
def dget : Dict → String → Option PVal
  | [], _ => none
  | kv :: rest, k => if kv.1 == k then some kv.2 else dget rest k

/-- `k in d`. -/
def dmem : Dict → String → Bool
  | [], _ => false
  | kv :: rest, k => kv.1 == k || dmem rest k

/-- `d[k] = v` assignment: replace the value at an existing key in place
(keys are unique, so replacing the first occurrence suffices), else append —
Python dicts keep insertion order. -/
def dset : Dict → String → PVal → Dict
  | [], k, v => [(k, v)]
  | kv :: rest, k, v => if kv.1 == k then (k, v) :: rest else kv :: dset rest k v

theorem dget_dset_self (d : Dict) (k : String) (v : PVal) :
    dget (dset d k v) k = some v := by
  induction d with
  | nil => simp [dget, dset]
  | cons kv rest ih =>
      by_cases h : kv.1 = k
      · simp [dget, dset, h]
      · simp only [dset, dget, beq_iff_eq, if_neg h]
        exact ih

theorem dget_dset_ne (d : Dict) (k k2 : String) (v : PVal) (hne : k2 ≠ k) :
    dget (dset d k v) k2 = dget d k2 := by
  induction d with
  | nil => simp [dget, dset, Ne.symm hne]
  | cons kv rest ih =>
      by_cases h : kv.1 = k
      · simp [dget, dset, h, hne, Ne.symm hne]
      · simp only [dset, dget, beq_iff_eq, if_neg h]
        by_cases h2 : kv.1 = k2 <;> simp [h2, ih]

/-- Dereference a heap address. -/
def hget (h : Heap) (a : Nat) : Dict :=
  (h.get? a).getD []

/-- Overwrite the dict stored at a heap address. -/
def hset (h : Heap) (a : Nat) (d : Dict) : Heap :=
  h.set a d

/-- Allocate a fresh dict on the heap, returning its address. -/
def halloc (h : Heap) (d : Dict) : Heap × Nat :=
  (h ++ [d], h.length)

/-- In-place mutation of the dict at address `a` (Python `d[k] = v` through a
reference). -/
def hmodify (h : Heap) (a : Nat) (f : Dict → Dict) : Heap :=
  hset h a (f (hget h a))

theorem hget_hset_ne (h : Heap) (a b : Nat) (d : Dict) (hab : a ≠ b) :
    hget (hset h a d) b = hget h b := by
  simp [hget, hset, List.getElem?_set_ne hab]

theorem hget_hset_self (h : Heap) (a : Nat) (d : Dict) (ha : a < h.length) :
    hget (hset h a d) a = d := by
  simp [hget, hset, List.getElem?_set_self ha]

theorem hget_hmodify_ne (h : Heap) (a b : Nat) (f : Dict → Dict) (hab : a ≠ b) :
    hget (hmodify h a f) b = hget h b :=
  hget_hset_ne _ _ _ _ hab

theorem hget_halloc (h : Heap) (d : Dict) (b : Nat) (hb : b < h.length) :
    hget (h ++ [d]) b = hget h b := by
  simp [hget, List.getElem?_append_left hb]

theorem hget_halloc_self (h : Heap) (d : Dict) :
    hget (h ++ [d]) h.length = d := by
  simp [hget]

theorem hget_hmodify_self (h : Heap) (a : Nat) (f : Dict → Dict)
    (ha : a < h.length) : hget (hmodify h a f) a = f (hget h a) :=
  hget_hset_self _ _ _ ha

theorem length_hset (h : Heap) (a : Nat) (d : Dict) :
    (hset h a d).length = h.length := by
  simp [hset]

theorem length_hmodify (h : Heap) (a : Nat) (f : Dict → Dict) :
    (hmodify h a f).length = h.length :=
  length_hset _ _ _

/-! ## `src/utils/formatters.py` — rounding, BMI, `normalize_patient_data` -/

/-- Python's `round` to an integer: round-half-to-even (banker's rounding),
on the idealized decimal value. -/
def pyRoundInt (q : ℚ) : ℤ :=
  let f : ℤ := ⌊q⌋
  let r : ℚ := q - f
  if r < 1/2 then f
  else if 1/2 < r then f + 1
  else if Even f then f else f + 1

/-- Python's `round(x, dp)` on a number. -/
def pyRound (q : ℚ) (dp : Nat) : ℚ :=
  (pyRoundInt (q * 10 ^ dp) : ℚ) / 10 ^ dp

/-- `round_sensibly(value, decimal_places)` from `utils/formatters.py`:
returns `None` for `None`, otherwise `round(value, decimal_places)`.
(Non-numeric, non-`None` inputs would raise `TypeError` in Python and are
outside the modelled domain; they are returned unchanged.) -/
def round_sensibly (v : PVal) (dp : Nat) : PVal :=
  match v with
  | .none_ => .none_
  | .num q => .num (pyRound q dp)
  | x => x

/-- `calculate_bmi(weight_kg, height_cm)` from `utils/formatters.py`:
`0.0` if either argument is falsy or the height is non-positive, else
`round_sensibly(weight / (height/100)^2, 1)`.  Non-numeric arguments are
outside the modelled domain and yield `0.0`. -/
def calculate_bmi (w h : PVal) : PVal :=
  match w, h with
  | .num wq, .num hq =>
      if wq == 0 || hq == 0 || hq ≤ 0 then .num 0
      else .num (pyRound (wq / ((hq / 100) ^ 2)) 1)
  | _, _ => .num 0

/-- One rounding assignment `d[k] = round_sensibly(d[k], 1)` guarded by
`if k in d`. -/
def roundField (d : Dict) (k : String) : Dict :=
  if dmem d k then dset d k (round_sensibly ((dget d k).getD .none_) 1) else d

/-- The BMI block of `normalize_patient_data`:
`normalized['bmi'] = calculate_bmi(...)` when both anthropometrics are
present. -/
def bmi_step (h : Heap) (norm : Nat) : Heap :=
  hmodify h norm (fun d =>
    if dmem d "weight_kg" && dmem d "height_cm" then
      dset d "bmi" (calculate_bmi ((dget d "weight_kg").getD .none_)
        ((dget d "height_cm").getD .none_))
    else d)

/-- The labs block of `normalize_patient_data`: round `hba1c_pct`,
`fpg_mmol`, `ppg2h_mmol` and the four lipid fields in place, through the
references stored under `labs` and `labs['lipids']`. -/
def labs_rounding (h : Heap) (norm : Nat) : Heap :=
  let d := hget h norm
  if dmem d "labs" then
    match (dget d "labs").getD .none_ with
    | .ref labsAddr =>
        let h := hmodify h labsAddr (fun labs =>
          roundField (roundField (roundField labs "hba1c_pct") "fpg_mmol") "ppg2h_mmol")
        let labs := hget h labsAddr
        if dmem labs "lipids" then
          match (dget labs "lipids").getD .none_ with
          | .ref lipAddr =>
              hmodify h lipAddr (fun lip =>
                roundField (roundField (roundField (roundField lip "tc") "ldl") "hdl") "tg")
          | _ => h
        else h
    | _ => h
  else h

/-- The blood-pressure block of `normalize_patient_data`: round `bp_sys` and
`bp_dia` to integers when present. -/
def bp_step (h : Heap) (norm : Nat) : Heap :=
  hmodify h norm (fun d =>
    let d := if dmem d "bp_sys" then
        dset d "bp_sys" (round_sensibly ((dget d "bp_sys").getD .none_) 0) else d
    if dmem d "bp_dia" then
        dset d "bp_dia" (round_sensibly ((dget d "bp_dia").getD .none_) 0) else d)

/-- The list-valued defaults of `normalize_patient_data` (`devices`, `meds`,
`comorbidities`). -/
def list_defaults_step (h : Heap) (norm : Nat) : Heap :=
  hmodify h norm (fun d =>
    let d := if dmem d "devices" then d else dset d "devices" (.listv [])
    let d := if dmem d "meds" then d else dset d "meds" (.listv [])
    if dmem d "comorbidities" then d else dset d "comorbidities" (.listv []))

/-- One dict-valued default of `normalize_patient_data`: when `key` is
missing, allocate a fresh empty dict and store a reference to it. -/
def addDefaultDict (h : Heap) (norm : Nat) (key : String) : Heap :=
  if dmem (hget h norm) key then h
  else
    let (h2, a) := halloc h []
    hset h2 norm (dset (hget h2 norm) key (.ref a))

/-- `normalize_patient_data(raw_data, rules)` from `utils/formatters.py`,
operating on the heap.  `raw` is the address of the input dict; the result is
the heap after the call together with the address of the new `normalized`
dict (a shallow copy of the input).  The nested `labs` and `lipids` dicts are
mutated in place through their references.  The `rules` argument is unused by
the source body and omitted. -/
def normalize_patient_data (h : Heap) (raw : Nat) : Heap × Nat :=
  -- normalized = raw_data.copy()
  let (h, norm) := halloc h (hget h raw)
  let h := bmi_step h norm
  let h := labs_rounding h norm
  let h := bp_step h norm
  let h := list_defaults_step h norm
  let h := addDefaultDict h norm "lifestyle"
  let h := addDefaultDict h norm "screenings"
  let h := addDefaultDict h norm "labs"
  (h, norm)

/-! ## `src/agents/report_orchestrator.py` — `merge_data_sources` -/

/-- `pdf_data.get('_confidence', {}).get(field, 0)`: the recorded
PDF-extraction confidence for a field, defaulting to `0`. -/
def confidenceLookup (h : Heap) (pdf : Dict) (field : String) : ℚ :=
  match dget pdf "_confidence" with
  | some (.ref ca) =>
      match dget (hget h ca) field with
      | some (.num q) => q
      | _ => 0
  | _ => 0

/-- Python `conflicts[field] == 'pdf'`. -/
def isPdfChoice (v : PVal) : Bool :=
  match v with
  | .str s => s == "pdf"
  | _ => false

/-- One iteration of the conflict-resolution loop of `merge_data_sources`,
on the entry `kv = (field, pdf_value)`: write the PDF value into the merged
dict when the field has no entry in `conflicts` and its confidence exceeds
`0.7`, or when `conflicts[field] == 'pdf'`. -/
def merge_step (merged : Nat) (pdf conflicts : Dict) (h : Heap)
    (kv : String × PVal) : Heap :=
  match dget conflicts kv.1 with
  | none =>
      if confidenceLookup h pdf kv.1 > 7/10 then
        hmodify h merged (fun d => dset d kv.1 kv.2)
      else h
  | some r =>
      if isPdfChoice r then hmodify h merged (fun d => dset d kv.1 kv.2)
      else h

/-- The conflict-resolution loop of `merge_data_sources`:
`for field, pdf_value in pdf_data.items(): …`. -/
def merge_loop (h : Heap) (merged : Nat) (pdf : Dict) (conflicts : Dict) : Heap :=
  pdf.foldl (merge_step merged pdf conflicts) h

/-- `ReportOrchestrator.merge_data_sources(form_data, pdf_data, conflicts)`:
shallow-copies the form dict, applies the conflict-resolution loop, then
normalizes.  Returns the heap after the call and the address of the
normalized dict handed to `PatientIntake(**normalized_data)`. -/
def merge_data_sources (h : Heap) (formAddr pdfAddr : Nat) (conflicts : Dict) :
    Heap × Nat :=
  let (h, merged) := halloc h (hget h formAddr)
  let h := merge_loop h merged (hget h pdfAddr) conflicts
  normalize_patient_data h merged

/-! ## `rules/schemas/report.py` — report schema, and the citation validator
of `src/agents/report_orchestrator.py` -/

/-- `Recommendation` from `rules/schemas/report.py`. -/
structure Recommendation where
  text : String
  citation_ids : List String

/-- An element of `ReportOut.interpretation` (a free-form dict in the
source); only the keys read by the modelled code are kept, and a missing
`citation_ids` key (`interp.get('citation_ids', [])`) is modelled as `[]`. -/
structure InterpretationItem where
  problem : String
  assessment : String
  plan : String
  citation_ids : List String

/-- An element of `ReportOut.citations` (`{id, source, section}` dicts in the
source; `section` is a Lean keyword and is rendered `sectionName`). -/
structure CitationEntry where
  id : String
  source : String
  sectionName : String

/-- `ReportOut` from `rules/schemas/report.py`, restricted to the fields the
modelled operations read; the remaining free-form sections (snapshot, plans,
tracker, …) are carried by no modelled operation and are omitted. -/
structure ReportOut where
  executive_summary : String
  interpretation : List InterpretationItem
  lifestyle_plan : List Recommendation
  medication_plan : List Recommendation
  emr_note : String
  citations : List CitationEntry

/-- A retrieval result as returned by `RAGRetriever.retrieve`: a metadata
entry `{id, source, section}` plus its `relevance_score`. -/
structure RetrievalResult where
  id : String
  source : String
  sectionName : String
  relevance_score : ℚ

/-- All citation identifiers referenced from the report, in the order the
validator visits them: lifestyle items, medication items, interpretation
items, then the top-level citations list. -/
def allCitationIds (report : ReportOut) : List String :=
  (report.lifestyle_plan.map (fun r => r.citation_ids)).flatten ++
  (report.medication_plan.map (fun r => r.citation_ids)).flatten ++
  (report.interpretation.map (fun i => i.citation_ids)).flatten ++
  report.citations.map (fun c => c.id)

/-- `ReportOrchestrator._validate_citations(report, snippets)`: collects every
citation id from the report, subtracts the retrieved snippet ids, and returns
`True` iff nothing is left over.  (Python's set difference is modelled by a
membership filter; only emptiness of the difference is observed.) -/
def validate_citations (report : ReportOut) (snippets : List RetrievalResult) : Bool :=
  let snippet_ids := snippets.map (fun s => s.id)
  let invalid_citations := (allCitationIds report).filter (fun i => !(snippet_ids.contains i))
  if !invalid_citations.isEmpty then false else true

/-- State-passing form of `_validate_citations`: the method only reads the
report, so the report component of the state is returned unchanged. -/
def validate_citations_st (report : ReportOut) (snippets : List RetrievalResult) :
    Bool × ReportOut :=
  (validate_citations report snippets, report)

/-! ## `ReportOrchestrator.generate_report` — bounded retry loop

The LLM round trip `_call_llm_for_report` followed by `ReportOut(**json)` is
external and nondeterministic; it is modelled as an oracle
`llm : Nat → Option String → Except String ReportOut` mapping the attempt
number and the `previous_error` entry of the mutable context (absent on the
first attempt) to either a parsed report or the exception message of that
attempt. -/

/-- The body of `for attempt in range(max_retries + 1)` with its early
returns, processing the remaining attempt numbers.  On success the citation
warning is appended exactly as in the source; on failure the attempt's error
message is appended and, unless the budget is exhausted, the error is fed to
the next attempt as `previous_error`.  The `[]` case is the `return None,
errors` after the loop. -/
def gen_attempts (llm : Nat → Option String → Except String ReportOut)
    (snippets : List RetrievalResult) (max_retries : Nat) :
    List Nat → Option String → List String → Option ReportOut × List String
  | [], _, errors => (none, errors)
  | attempt :: rest, prevErr, errors =>
      match llm attempt prevErr with
      | .ok report =>
          let errors :=
            if validate_citations report snippets then errors
            else errors ++ ["Some citations are invalid"]
          (some report, errors)
      | .error e =>
          let errors := errors ++ ["Attempt " ++ toString (attempt + 1) ++ " failed: " ++ e]
          if attempt == max_retries then (none, errors)
          else gen_attempts llm snippets max_retries rest (some e) errors

/-- `ReportOrchestrator.generate_report(patient_data, max_retries)`.  The
retrieval-query construction and `retrieve` call sit inside the outer `try`;
their combined outcome is the oracle `retrieval` (an exception there is
caught at the orchestrator boundary and converted into
`(None, ["Report generation failed: …"])`). -/
def generate_report (retrieval : Except String (List RetrievalResult))
    (llm : Nat → Option String → Except String ReportOut)
    (max_retries : Nat) : Option ReportOut × List String :=
  match retrieval with
  | .error e => (none, ["Report generation failed: " ++ e])
  | .ok snippets =>
      gen_attempts llm snippets max_retries (List.range (max_retries + 1)) none []

/-- The `previous_error` value the loop feeds into attempt `n`: `None` for
attempt `0`, otherwise the error raised by attempt `n - 1` along the run. -/
def chainErr (llm : Nat → Option String → Except String ReportOut) : Nat → Option String
  | 0 => none
  | n + 1 =>
      match llm n (chainErr llm n) with
      | .error e => some e
      | .ok _ => none

/-- The error message produced by attempt `n` along the run (meaningful when
that attempt fails). -/
def errAt (llm : Nat → Option String → Except String ReportOut) (n : Nat) : String :=
  match llm n (chainErr llm n) with
  | .error e => e
  | .ok _ => ""

/-- The error string `generate_report` accumulates for a failed attempt `n`
(0-based). -/
def attemptMsg (llm : Nat → Option String → Except String ReportOut) (n : Nat) : String :=
  "Attempt " ++ toString (n + 1) ++ " failed: " ++ errAt llm n

/-! ## `src/rag/retriever.py` — `RAGRetriever.retrieve`

The FAISS `IndexFlatIP` holds the indexed vectors in insertion order and
`search` performs exact top-`k` retrieval by inner product, scores descending.
The index (loaded from disk, `None` when either file is missing) is modelled
as `Option (List (List ℚ))`; the external embedding round trip of
`get_embedding` plus `faiss.normalize_L2` is the oracle `embedding`
(an exception from the embedding call makes it `.error`). -/

/-- A snippet-metadata entry from `metadata.json`: `{id, source, section}`. -/
structure SnippetMeta where
  id : String
  source : String
  sectionName : String

/-- Inner product of two vectors (the similarity `IndexFlatIP` ranks by). -/
def ipScore (q v : List ℚ) : ℚ :=
  (q.zip v).foldl (fun acc p => acc + p.1 * p.2) 0

/-- Exact top-`k` inner-product search over the indexed vectors: score every
vector, sort by descending score (stable, so ties keep insertion order), take
the first `k`, returning `(score, index)` pairs. -/
def searchIP (vecs : List (List ℚ)) (q : List ℚ) (k : Nat) : List (ℚ × Nat) :=
  let scored := vecs.enum.map (fun p => (ipScore q p.2, p.1))
  (scored.mergeSort (fun a b => decide (b.1 ≤ a.1))).take k

/-- `RAGRetriever.retrieve(query, k)`: empty when no index is loaded; any
exception (in particular from the embedding call) is caught and yields `[]`;
`k` is clamped to the number of indexed vectors; search hits are formatted
from the metadata list, skipping out-of-range indices. -/
def retrieve (index : Option (List (List ℚ))) (metadata : List SnippetMeta)
    (embedding : Except String (List ℚ)) (k : Nat) : List RetrievalResult :=
  match index with
  | none => []
  | some vecs =>
      match embedding with
      | .error _ => []
      | .ok emb =>
          let k2 := if vecs.length > 0 then min k vecs.length else 0
          if k2 == 0 then []
          else
            (searchIP vecs emb k2).filterMap (fun p =>
              match metadata.get? p.2 with
              | some m => some ⟨m.id, m.source, m.sectionName, p.1⟩
              | none => none)

/-! ## `src/rag/retriever.py` — `RAGRetriever.build_retrieval_query`

Patient data (`patient_data.dict()`) is JSON-like and never mutated here, so
it is modelled by a plain nested value type `JVal` rather than the heap. -/

/-- A JSON-like Python value as produced by `dict()` / `json.loads`. -/
inductive JVal where
  | null : JVal
  | bool : Bool → JVal
  | num : ℚ → JVal
  | str : String → JVal
  | arr : List JVal → JVal
  | obj : List (String × JVal) → JVal

/-- Key lookup in an object's field list. -/
def jget (fields : List (String × JVal)) (k : String) : Option JVal :=
  match fields.find? (fun kv => kv.1 == k) with
  | some kv => some kv.2
  | none => none

/-- Python truthiness of a `JVal`. -/
def jtruthy : JVal → Bool
  | .null => false
  | .bool b => b
  | .num q => !(q == 0)
  | .str s => !(s == "")
  | .arr l => !l.isEmpty
  | .obj f => !f.isEmpty

/-- Python `str()` of a value as used in the query f-string (only string
values occur for `diabetes_type` under the `PatientIntake` schema). -/
def jvalStr : JVal → String
  | .str s => s
  | _ => "<value>"

/-- Python `' '.join(parts)`. -/
def pyJoin (sep : String) : List String → String
  | [] => ""
  | [a] => a
  | a :: rest => a ++ sep ++ pyJoin sep rest

/-- Python `needle in hay` on strings, as containment of character lists. -/
def listContains (needle : List Char) : List Char → Bool
  | [] => needle.isPrefixOf []
  | c :: rest => needle.isPrefixOf (c :: rest) || listContains needle rest

/-- `any('insulin' in med.get('name', '').lower() for med in meds)`; a
non-dict list element or a non-string name raises `AttributeError`. -/
def anyInsulin : List JVal → Except String Bool
  | [] => .ok false
  | m :: rest =>
      match m with
      | .obj fields =>
          match (jget fields "name").getD (.str "") with
          | .str name =>
              if listContains ("insulin".toList) (name.toLower.toList) then .ok true
              else anyInsulin rest
          | _ => .error "AttributeError: lower"
      | _ => .error "AttributeError: get"

/-- Python `v > 0`: defined for numbers (and booleans, which are ints);
`TypeError` otherwise — in particular for `None`. -/
def pyGtZero : JVal → Except String Bool
  | .num q => .ok (decide (q > 0))
  | .bool b => .ok b
  | _ => .error
      "TypeError: '>' not supported between instances of 'NoneType' and 'int'"

/-- `RAGRetriever.build_retrieval_query(patient_data)`.  The function can
raise: `patient_data.get('hypos_90d', 0) > 0` is a `TypeError` when the field
holds `None` (the `PatientIntake` default), comparisons and attribute
accesses on ill-typed fields likewise; these propagate to the caller and are
modelled as `.error`. -/
def build_retrieval_query (pd : List (String × JVal)) : Except String String :=
  let parts : List String := []
  -- diabetes type
  let parts :=
    if jtruthy ((jget pd "diabetes_type").getD .null) then
      parts ++ [jvalStr ((jget pd "diabetes_type").getD .null) ++ " diabetes"]
    else parts
  -- labs = patient_data.get('labs', {})
  match (jget pd "labs").getD (.obj []) with
  | .obj labs =>
      let parts :=
        if jtruthy ((jget labs "hba1c_pct").getD .null) then
          parts ++ ["HbA1c blood glucose control"]
        else parts
      let parts :=
        if jtruthy ((jget pd "bp_sys").getD .null) then
          parts ++ ["blood pressure hypertension"]
        else parts
      let parts :=
        if jtruthy ((jget labs "lipids").getD .null) then
          parts ++ ["cholesterol lipids cardiovascular risk"]
        else parts
      -- patient_data.get('hypos_90d', 0) > 0
      match pyGtZero ((jget pd "hypos_90d").getD (.num 0)) with
      | .ok hyposPos =>
          let parts :=
            if hyposPos then parts ++ ["hypoglycaemia management"] else parts
          -- meds = patient_data.get('meds', [])
          match (jget pd "meds").getD (.arr []) with
          | .arr meds =>
              match anyInsulin meds with
              | .error e => .error e
              | .ok ins =>
                  let parts := if ins then parts ++ ["insulin therapy"] else parts
                  let parts := parts ++ ["screening retinopathy kidney foot"]
                  let query := pyJoin " " parts
                  .ok (if query == "" then "diabetes management guidelines" else query)
          | _ => .error "TypeError: meds is not iterable"
      | .error e => .error e
  | _ => .error "AttributeError: labs has no attribute get"

/-! ## `src/rag/index_builder.py` — `RAGIndexBuilder.build_index`

The two persisted artifacts (`index.faiss` and `metadata.json`) are modelled
as an explicit file-system record; each of the two writes may fail (disk
error), controlled by the oracle flags `writeIndexOk` / `writeMetaOk`.  The
embedding round trip is the per-chunk oracle `embedOne` (the OpenAI API
returns one embedding per input text).  `faiss.normalize_L2` rescales each
embedding in place by a positive factor before it is added; the vectors are
modelled post-normalization, which affects neither their number nor their
order. -/

/-- A guideline passage from `load_guidelines()`. -/
structure Guideline where
  id : String
  source : String
  sectionName : String
  text : String

/-- The two persisted index artifacts. -/
structure FS where
  vecFile : Option (List (List ℚ))
  metaFile : Option (List SnippetMeta)

/-- `RAGIndexBuilder.chunk_text(text)`: split into words, then overlapping
windows of `chunk_size = 1000` words with `overlap = 200` (step 800). -/
def chunk_text (text : String) : List String :=
  let words := (text.split (fun c => c.isWhitespace)).filter (fun w => !(w == ""))
  let step := 1000 - 200
  (List.range ((words.length + step - 1) / step)).map
    (fun j => pyJoin " " ((words.drop (j * step)).take 1000))

/-- The chunk texts and parallel metadata entries built from the corpus. -/
def chunksAndMeta (guidelines : List Guideline) : List (String × SnippetMeta) :=
  (guidelines.map (fun g =>
    (chunk_text g.text).enum.map (fun p =>
      (p.2, SnippetMeta.mk (g.id ++ "_chunk_" ++ toString p.1) g.source g.sectionName)))).flatten

/-- `RAGIndexBuilder.build_index(save_path)`: returns the raised error or the
built `(index, metadata)` pair, together with the file system after the call.
Failures before the write phase (empty corpus, no chunks, embedding error,
empty index) write nothing; the index file is written before the metadata
file. -/
def build_index (guidelines : List Guideline)
    (embedOne : String → Except String (List ℚ))
    (writeIndexOk writeMetaOk : Bool) (fs : FS) :
    Except String (List (List ℚ) × List SnippetMeta) × FS :=
  if guidelines.isEmpty then (.error "No guidelines found to index", fs)
  else
    let cm := chunksAndMeta guidelines
    let all_chunks := cm.map (fun p => p.1)
    let metadata := cm.map (fun p => p.2)
    if all_chunks.isEmpty then
      (.error "No text chunks were generated from guidelines", fs)
    else
      match all_chunks.mapM embedOne with
      | .error e => (.error e, fs)
      | .ok embeddings =>
          if embeddings.length == 0 then (.error "Failed to add vectors to index", fs)
          else if writeIndexOk then
            let fs := { fs with vecFile := some embeddings }
            if writeMetaOk then
              let fs := { fs with metaFile := some metadata }
              (.ok (embeddings, metadata), fs)
            else (.error "metadata write failed", fs)
          else (.error "index write failed", fs)

/-! ## `src/agents/pdf_parser.py` — `PDFParser`

The GPT call is the oracle `llm` (raw response text or exception); the
`json.loads` of the response is the oracle `jsonParse`.  Model-call effects
are made explicit: every function returns the number of model calls it
performed alongside its result. -/

/-- `PDFExtraction` from `rules/schemas/report.py`; the `labs`, `vitals`,
`screenings` and `provenance` mappings keep their JSON shape. -/
structure PDFExtraction where
  labs : List (String × JVal)
  vitals : List (String × JVal)
  screenings : List (String × JVal)
  confidence : ℚ
  warnings : List String
  provenance : List (String × JVal)

/-- The all-defaults `PDFExtraction` (pydantic defaults). -/
def PDFExtraction.default : PDFExtraction :=
  ⟨[], [], [], 0, [], []⟩

/-- `v is not None and v != ""` — the test a value must pass to count as an
extracted field. -/
def isExtracted : JVal → Bool
  | .null => false
  | .str s => !(s == "")
  | _ => true

/-- `data.get(key, {})`, raising `AttributeError` later if the value is not a
dict; modelled as `Except`. -/
def jgetObjOr (fields : List (String × JVal)) (k : String) :
    Except String (List (String × JVal)) :=
  match (jget fields k).getD (.obj []) with
  | .obj o => .ok o
  | _ => .error ("AttributeError: " ++ k ++ " is not a dict")

/-- `PDFParser._count_extracted_fields(data)`: counts the non-null, non-empty
values of `labs` (the nested `lipids` dict itself counts as one when
present), then of `lipids` when truthy, then of `vitals` and `screenings`.
Attribute errors on ill-shaped payloads propagate as `.error`. -/
def count_extracted_fields (data : List (String × JVal)) : Except String Nat := do
  let labs ← jgetObjOr data "labs"
  let c1 := labs.countP (fun kv => isExtracted kv.2)
  let c2 ←
    if jtruthy ((jget labs "lipids").getD .null) then
      match (jget labs "lipids").getD .null with
      | .obj lip => pure (lip.countP (fun kv => isExtracted kv.2))
      | _ => throw "AttributeError: lipids has no attribute values"
    else pure 0
  let vitals ← jgetObjOr data "vitals"
  let c3 := vitals.countP (fun kv => isExtracted kv.2)
  let screenings ← jgetObjOr data "screenings"
  let c4 := screenings.countP (fun kv => isExtracted kv.2)
  pure (c1 + c2 + c3 + c4)

/-- The confidence formula of `extract_structured_data`:
`min(1.0, extracted_count / total_possible)` with `total_possible = 15`. -/
def confidenceFormula (extracted_count : Nat) : ℚ :=
  min 1 ((extracted_count : ℚ) / 15)

/-- `parsed_data.get('warnings', [])`, coerced by pydantic to a list of
strings; a non-string element is a validation error. -/
def warningsOf (parsed : List (String × JVal)) : Except String (List String) :=
  match (jget parsed "warnings").getD (.arr []) with
  | .arr l => l.mapM (fun v =>
      match v with
      | .str s => Except.ok s
      | _ => Except.error "ValidationError: warnings")
  | _ => .error "ValidationError: warnings is not a list"

/-- `PDFParser.extract_structured_data(pdf_text)`.  Returns the extraction
result and the number of model calls made (`0` on the empty-input
short-circuit, `1` otherwise — there is no retry).  Any exception outside
`json.loads` (the API call itself, an ill-shaped payload) is caught by the
outer handler and yields a zero-confidence result; a `json.loads` failure is
caught by the inner handler. -/
def extract_structured_data (llm : Except String String)
    (jsonParse : String → Except String JVal) (pdf_text : String) :
    PDFExtraction × Nat :=
  if pdf_text.trim == "" then
    ({ PDFExtraction.default with
        confidence := 0, warnings := ["No text extracted from PDF"] }, 0)
  else
    match llm with
    | .error e =>
        ({ PDFExtraction.default with
            confidence := 0, warnings := ["LLM extraction failed: " ++ e] }, 1)
    | .ok result_text =>
        match jsonParse result_text with
        | .error e =>
            ({ PDFExtraction.default with
                confidence := 0,
                warnings := ["Failed to parse extraction JSON: " ++ e] }, 1)
        | .ok parsedVal =>
            match parsedVal with
            | .obj parsed =>
                match count_extracted_fields parsed, jgetObjOr parsed "labs",
                    jgetObjOr parsed "vitals", jgetObjOr parsed "screenings",
                    warningsOf parsed with
                | .ok n, .ok labs, .ok vitals, .ok screenings, .ok warns =>
                    ({ labs := labs, vitals := vitals, screenings := screenings,
                       confidence := confidenceFormula n,
                       warnings := warns,
                       provenance :=
                         [("extraction_model", .str "gpt-4o-mini"),
                          ("extracted_fields", .num n)] }, 1)
                | .error e, _, _, _, _ =>
                    ({ PDFExtraction.default with
                        confidence := 0,
                        warnings := ["LLM extraction failed: " ++ e] }, 1)
                | _, .error e, _, _, _ =>
                    ({ PDFExtraction.default with
                        confidence := 0,
                        warnings := ["LLM extraction failed: " ++ e] }, 1)
                | _, _, .error e, _, _ =>
                    ({ PDFExtraction.default with
                        confidence := 0,
                        warnings := ["LLM extraction failed: " ++ e] }, 1)
                | _, _, _, .error e, _ =>
                    ({ PDFExtraction.default with
                        confidence := 0,
                        warnings := ["LLM extraction failed: " ++ e] }, 1)
                | _, _, _, _, .error e =>
                    ({ PDFExtraction.default with
                        confidence := 0,
                        warnings := ["LLM extraction failed: " ++ e] }, 1)
            | _ =>
                ({ PDFExtraction.default with
                    confidence := 0,
                    warnings := ["LLM extraction failed: AttributeError: get"] }, 1)

/-- The page loop of `PDFParser.extract_text`: accumulate the page texts with
headers; `none` signals the scanned-document early return (first page under
50 stripped characters). -/
def pagesText : List String → Nat → String → Option String
  | [], _, acc => some acc
  | p :: rest, i, acc =>
      let acc := acc ++ "\n--- Page " ++ toString (i + 1) ++ " ---\n" ++ p
      if p.trim.length < 50 && i + 1 == 1 then none
      else pagesText rest (i + 1) acc

/-- `PDFParser.extract_text(pdf_file)`: the document is the oracle `doc`
(page texts, or the exception raised while opening).  Returns
`(text, metadata)` as a string and a metadata dict. -/
def extract_text (doc : Except String (List String)) :
    String × List (String × JVal) :=
  match doc with
  | .error e => ("", [("error", .str ("PDF extraction failed: " ++ e))])
  | .ok pages =>
      match pagesText pages 0 "" with
      | none =>
          ("", [("warning", .str "Document appears to be scanned - OCR not supported")])
      | some text =>
          (text, [("page_count", .num pages.length),
                  ("text_length", .num text.length),
                  ("filename", .str "uploaded_file")])

/-- `metadata.get('warning', metadata.get('error', 'Unknown extraction
error'))`. -/
def metaWarning (meta : List (String × JVal)) : String :=
  match jget meta "warning" with
  | some (.str s) => s
  | _ =>
      match jget meta "error" with
      | some (.str s) => s
      | _ => "Unknown extraction error"

/-- `PDFParser.parse_pdf(pdf_file)`: extract the text, short-circuit to a
zero-confidence result when it is empty (no model call), otherwise run the
structured extraction and merge the text metadata into its provenance. -/
def parse_pdf (doc : Except String (List String)) (llm : Except String String)
    (jsonParse : String → Except String JVal) : PDFExtraction × Nat :=
  let (pdf_text, meta) := extract_text doc
  if pdf_text == "" then
    ({ PDFExtraction.default with confidence := 0, warnings := [metaWarning meta] }, 0)
  else
    let (extraction, calls) := extract_structured_data llm jsonParse pdf_text
    ({ extraction with provenance := extraction.provenance ++ meta }, calls)

/-! # Theorems for the claims -/

/-! ## C1 — citation validator -/

theorem validate_citations_eq (report : ReportOut) (snippets : List RetrievalResult) :
    validate_citations report snippets =
      ((allCitationIds report).filter
        (fun i => !((snippets.map (fun s => s.id)).contains i))).isEmpty := by
  have hIf : ∀ b : Bool, (if (!b) = true then false else true) = b := by decide
  simp only [validate_citations]
  exact hIf _

/-- C1: the citation validator returns `true` iff every citation identifier
collected from the report's lifestyle items, medication items,
interpretation items, and top-level citations list belongs to the retrieved
passage id set, and (in state-passing form) it returns the report
unchanged. -/
theorem C1_validate_citations_sound (report : ReportOut)
    (snippets : List RetrievalResult) :
    (validate_citations report snippets = true ↔
      ((∀ r ∈ report.lifestyle_plan, ∀ cid ∈ r.citation_ids,
          cid ∈ snippets.map (fun s => s.id)) ∧
       (∀ r ∈ report.medication_plan, ∀ cid ∈ r.citation_ids,
          cid ∈ snippets.map (fun s => s.id)) ∧
       (∀ i ∈ report.interpretation, ∀ cid ∈ i.citation_ids,
          cid ∈ snippets.map (fun s => s.id)) ∧
       (∀ c ∈ report.citations, c.id ∈ snippets.map (fun s => s.id)))) ∧
    (validate_citations_st report snippets).2 = report := by
  refine ⟨?_, rfl⟩
  rw [validate_citations_eq, List.isEmpty_iff, List.filter_eq_nil_iff]
  have hpred : ∀ cid : String,
      (¬(fun i => !((snippets.map (fun s => s.id)).contains i)) cid = true) ↔
        cid ∈ snippets.map (fun s => s.id) := by
    intro cid
    simp [List.contains, List.elem_iff]
  constructor
  · intro h
    have hmem : ∀ cid ∈ allCitationIds report, cid ∈ snippets.map (fun s => s.id) :=
      fun cid hc => (hpred cid).mp (h cid hc)
    refine ⟨?_, ?_, ?_, ?_⟩
    · intro r hr cid hc
      refine hmem cid ?_
      unfold allCitationIds
      exact List.mem_append_left _ (List.mem_append_left _ (List.mem_append_left _
        (List.mem_flatten.mpr ⟨r.citation_ids, List.mem_map_of_mem _ hr, hc⟩)))
    · intro r hr cid hc
      refine hmem cid ?_
      unfold allCitationIds
      exact List.mem_append_left _ (List.mem_append_left _ (List.mem_append_right _
        (List.mem_flatten.mpr ⟨r.citation_ids, List.mem_map_of_mem _ hr, hc⟩)))
    · intro i hi cid hc
      refine hmem cid ?_
      unfold allCitationIds
      exact List.mem_append_left _ (List.mem_append_right _
        (List.mem_flatten.mpr ⟨i.citation_ids, List.mem_map_of_mem _ hi, hc⟩))
    · intro c hc
      refine hmem c.id ?_
      unfold allCitationIds
      exact List.mem_append_right _ (List.mem_map_of_mem _ hc)
  · rintro ⟨h1, h2, h3, h4⟩ cid hm
    refine (hpred cid).mpr ?_
    unfold allCitationIds at hm
    rcases List.mem_append.mp hm with hm | hm
    · rcases List.mem_append.mp hm with hm | hm
      · rcases List.mem_append.mp hm with hm | hm
        · obtain ⟨l, hl, hc⟩ := List.mem_flatten.mp hm
          obtain ⟨r, hr, rfl⟩ := List.mem_map.mp hl
          exact h1 r hr cid hc
        · obtain ⟨l, hl, hc⟩ := List.mem_flatten.mp hm
          obtain ⟨r, hr, rfl⟩ := List.mem_map.mp hl
          exact h2 r hr cid hc
      · obtain ⟨l, hl, hc⟩ := List.mem_flatten.mp hm
        obtain ⟨i, hi, rfl⟩ := List.mem_map.mp hl
        exact h3 i hi cid hc
    · obtain ⟨c, hc, rfl⟩ := List.mem_map.mp hm
      exact h4 c hc

/-! ## C2 — PDF-over-form merge policy -/

/-- The decision of the conflict-resolution loop for a field present in the
PDF data: take the PDF value iff there is no entry in `conflicts` and the
confidence exceeds `0.7`, or the entry resolves to `'pdf'`. -/
def pdfWinsB (h : Heap) (pdf conflicts : Dict) (field : String) : Bool :=
  match dget conflicts field with
  | none => decide (confidenceLookup h pdf field > 7/10)
  | some r => isPdfChoice r

theorem merge_step_hget_ne (merged : Nat) (pdf conflicts : Dict) (h : Heap)
    (kv : String × PVal) (b : Nat) (hb : b ≠ merged) :
    hget (merge_step merged pdf conflicts h kv) b = hget h b := by
  unfold merge_step
  split
  · split
    · exact hget_hmodify_ne _ _ _ _ (Ne.symm hb)
    · rfl
  · split
    · exact hget_hmodify_ne _ _ _ _ (Ne.symm hb)
    · rfl

theorem merge_step_length (merged : Nat) (pdf conflicts : Dict) (h : Heap)
    (kv : String × PVal) :
    (merge_step merged pdf conflicts h kv).length = h.length := by
  unfold merge_step
  split
  · split
    · exact length_hmodify _ _ _
    · rfl
  · split
    · exact length_hmodify _ _ _
    · rfl

theorem merge_step_conf (merged : Nat) (pdf conflicts : Dict) (h : Heap)
    (kv : String × PVal) (field : String)
    (hca : ∀ ca, dget pdf "_confidence" = some (.ref ca) → ca ≠ merged) :
    confidenceLookup (merge_step merged pdf conflicts h kv) pdf field =
      confidenceLookup h pdf field := by
  unfold confidenceLookup
  cases hcc : dget pdf "_confidence" with
  | none => rfl
  | some v =>
      cases v with
      | ref ca =>
          dsimp only
          rw [merge_step_hget_ne _ _ _ _ _ _ (hca ca hcc)]
      | none_ => rfl
      | num q => rfl
      | str s => rfl
      | listv l => rfl

theorem pdfWinsB_merge_step (merged : Nat) (pdf conflicts : Dict) (h : Heap)
    (kv : String × PVal) (field : String)
    (hca : ∀ ca, dget pdf "_confidence" = some (.ref ca) → ca ≠ merged) :
    pdfWinsB (merge_step merged pdf conflicts h kv) pdf conflicts field =
      pdfWinsB h pdf conflicts field := by
  unfold pdfWinsB
  cases dget conflicts field with
  | none => rw [merge_step_conf _ _ _ _ _ _ hca]
  | some r => rfl

theorem dget_merge_step_ne (merged : Nat) (pdf conflicts : Dict) (h : Heap)
    (kv : String × PVal) (field : String) (hlt : merged < h.length)
    (hne : kv.1 ≠ field) :
    dget (hget (merge_step merged pdf conflicts h kv) merged) field =
      dget (hget h merged) field := by
  unfold merge_step
  split
  · split
    · rw [hget_hmodify_self _ _ _ hlt, dget_dset_ne _ _ _ _ (Ne.symm hne)]
    · rfl
  · split
    · rw [hget_hmodify_self _ _ _ hlt, dget_dset_ne _ _ _ _ (Ne.symm hne)]
    · rfl

theorem merge_fold_length (merged : Nat) (pdf conflicts : Dict) :
    ∀ (l : List (String × PVal)) (h : Heap),
      (l.foldl (merge_step merged pdf conflicts) h).length = h.length := by
  intro l
  induction l with
  | nil => intro h; rfl
  | cons kv rest ih =>
      intro h
      rw [List.foldl_cons, ih, merge_step_length]

theorem merge_fold_untouched (merged : Nat) (pdf conflicts : Dict) (field : String) :
    ∀ (l : List (String × PVal)) (h : Heap), merged < h.length →
      (∀ kv ∈ l, kv.1 ≠ field) →
      dget (hget (l.foldl (merge_step merged pdf conflicts) h) merged) field =
        dget (hget h merged) field := by
  intro l
  induction l with
  | nil => intro h _ _; rfl
  | cons kv rest ih =>
      intro h hlt hne
      rw [List.foldl_cons,
        ih _ (by rw [merge_step_length]; exact hlt)
          (fun kv2 hkv2 => hne kv2 (List.mem_cons_of_mem _ hkv2)),
        dget_merge_step_ne _ _ _ _ _ _ hlt (hne kv (List.mem_cons_self _ _))]

theorem merge_fold_spec (merged : Nat) (pdf conflicts : Dict) (field : String)
    (v : PVal)
    (hca : ∀ ca, dget pdf "_confidence" = some (.ref ca) → ca ≠ merged) :
    ∀ (l : List (String × PVal)) (h : Heap), (field, v) ∈ l →
      (l.map Prod.fst).Nodup → merged < h.length →
      dget (hget (l.foldl (merge_step merged pdf conflicts) h) merged) field =
        (if pdfWinsB h pdf conflicts field then some v
         else dget (hget h merged) field) := by
  intro l
  induction l with
  | nil => intro h hmem; cases hmem
  | cons kv rest ih =>
      intro h hmem hnodup hlt
      have hnodup2 : kv.1 ∉ rest.map Prod.fst ∧ (rest.map Prod.fst).Nodup := by
        simpa [List.nodup_cons] using hnodup
      rw [List.foldl_cons]
      rcases List.mem_cons.mp hmem with heq | hmem2
      · -- kv is the entry (field, v) itself
        have hkfst : kv.1 = field := by rw [← heq]
        have hkv : kv = (field, v) := heq.symm
        have hrest : ∀ kv2 ∈ rest, kv2.1 ≠ field := by
          intro kv2 hkv2 hbad
          exact hnodup2.1 (hkfst ▸ hbad ▸ List.mem_map_of_mem Prod.fst hkv2)
        rw [merge_fold_untouched _ _ _ _ rest _
          (by rw [merge_step_length]; exact hlt) hrest]
        subst hkv
        unfold merge_step pdfWinsB
        cases hc : dget conflicts field with
        | none =>
            dsimp only
            by_cases hconf : confidenceLookup h pdf field > 7/10
            · rw [if_pos hconf, hget_hmodify_self _ _ _ hlt, dget_dset_self]
              simp [hconf]
            · rw [if_neg hconf]
              simp [hconf]
        | some r =>
            dsimp only
            by_cases hpdf : isPdfChoice r = true
            · rw [if_pos hpdf, hget_hmodify_self _ _ _ hlt, dget_dset_self]
              simp [hpdf]
            · rw [if_neg hpdf]
              simp [hpdf]
      · -- (field, v) lies further down; kv's key differs from field
        have hkv : kv.1 ≠ field := by
          intro hbad
          exact hnodup2.1 (hbad ▸ List.mem_map_of_mem Prod.fst hmem2)
        rw [ih _ hmem2 hnodup2.2 (by rw [merge_step_length]; exact hlt),
          pdfWinsB_merge_step _ _ _ _ _ _ hca,
          dget_merge_step_ne _ _ _ _ _ _ hlt hkv]

/-- C2: in `merge_data_sources`, for every field present in the PDF data the
merged record (the copy of the form dict, after the conflict-resolution
loop) holds the PDF value exactly when the caller resolved the field to
`'pdf'`, or no resolution was supplied and the recorded PDF confidence for
the field exceeds `0.7`; otherwise the form value is kept.  The two scenario
conjuncts run the full `merge_data_sources` on
`form = {hba1c: 7.0}`, `pdf = {hba1c: 7.5}` with no resolution: at
confidence `0.9` the merged value is `7.5`, at confidence `0.3` it is
`7.0`. -/
theorem C2_merge_policy :
    (∀ (h : Heap) (merged : Nat) (pdf conflicts : Dict) (field : String) (v : PVal),
        (field, v) ∈ pdf → (pdf.map Prod.fst).Nodup → merged < h.length →
        (∀ ca, dget pdf "_confidence" = some (.ref ca) → ca ≠ merged) →
        dget (hget (merge_loop h merged pdf conflicts) merged) field =
          (if pdfWinsB h pdf conflicts field then some v
           else dget (hget h merged) field) ∧
        (pdfWinsB h pdf conflicts field = true ↔
          dget conflicts field = some (.str "pdf") ∨
            (dget conflicts field = none ∧
              confidenceLookup h pdf field > 7/10))) ∧
    dget (hget (merge_data_sources [[("hba1c", .num 7)],
        [("hba1c", .num (15/2)), ("_confidence", .ref 2)],
        [("hba1c", .num (9/10))]] 0 1 []).1
      (merge_data_sources [[("hba1c", .num 7)],
        [("hba1c", .num (15/2)), ("_confidence", .ref 2)],
        [("hba1c", .num (9/10))]] 0 1 []).2) "hba1c" = some (.num (15/2)) ∧
    dget (hget (merge_data_sources [[("hba1c", .num 7)],
        [("hba1c", .num (15/2)), ("_confidence", .ref 2)],
        [("hba1c", .num (3/10))]] 0 1 []).1
      (merge_data_sources [[("hba1c", .num 7)],
        [("hba1c", .num (15/2)), ("_confidence", .ref 2)],
        [("hba1c", .num (3/10))]] 0 1 []).2) "hba1c" = some (.num 7) := by
  refine ⟨?_, by with_unfolding_all rfl, by with_unfolding_all rfl⟩
  intro h merged pdf conflicts field v hmem hnodup hlt hca
  constructor
  · exact merge_fold_spec merged pdf conflicts field v hca pdf h hmem hnodup hlt
  · unfold pdfWinsB
    cases hc : dget conflicts field with
    | none => simp
    | some r => cases r <;> simp [isPdfChoice]

/-- Witness for C2: a concrete instance of the general conjunct, with the
field explicitly resolved to `'pdf'`. -/
theorem C2_merge_policy_witness :
    dget (hget (merge_loop [[]] 0 [("a", PVal.num 1)] [("a", PVal.str "pdf")]) 0)
      "a" = some (PVal.num 1) := by
  have h := (C2_merge_policy.1 [[]] 0 [("a", PVal.num 1)] [("a", PVal.str "pdf")]
    "a" (PVal.num 1) (List.mem_cons_self _ _) (by simp) (by decide)
    (fun ca hca => Option.noConfusion hca))
  rw [h.1]
  with_unfolding_all rfl

/-! ## C6 — (non-)purity of `merge_data_sources` -/

theorem hset_oob (h : Heap) (a : Nat) (d : Dict) (ha : h.length ≤ a) :
    hset h a d = h := by
  induction h generalizing a with
  | nil => rfl
  | cons x t ih =>
      cases a with
      | zero => exact absurd ha (by simp)
      | succ a2 =>
          simp only [hset, List.set]
          exact congrArg (x :: ·) (ih a2 (Nat.le_of_succ_le_succ ha))

theorem hmodify_oob (h : Heap) (a : Nat) (f : Dict → Dict) (ha : h.length ≤ a) :
    hmodify h a f = h :=
  hset_oob _ _ _ ha

theorem dget_roundField_ne (d : Dict) (k k2 : String) (hne : k2 ≠ k) :
    dget (roundField d k) k2 = dget d k2 := by
  unfold roundField
  split
  · exact dget_dset_ne _ _ _ _ hne
  · rfl

theorem bmi_step_hget_ne (h : Heap) (norm b : Nat) (hbn : b ≠ norm) :
    hget (bmi_step h norm) b = hget h b :=
  hget_hmodify_ne _ _ _ _ (Ne.symm hbn)

theorem bmi_step_length (h : Heap) (norm : Nat) :
    (bmi_step h norm).length = h.length :=
  length_hmodify _ _ _

theorem dget_bmi_step_self (h : Heap) (norm : Nat) (k : String)
    (hn : norm < h.length) (hk : k ≠ "bmi") :
    dget (hget (bmi_step h norm) norm) k = dget (hget h norm) k := by
  unfold bmi_step
  rw [hget_hmodify_self _ _ _ hn]
  split
  · exact dget_dset_ne _ _ _ _ hk
  · rfl

theorem bp_step_hget_ne (h : Heap) (norm b : Nat) (hbn : b ≠ norm) :
    hget (bp_step h norm) b = hget h b :=
  hget_hmodify_ne _ _ _ _ (Ne.symm hbn)

theorem bp_step_length (h : Heap) (norm : Nat) :
    (bp_step h norm).length = h.length :=
  length_hmodify _ _ _

theorem list_defaults_step_hget_ne (h : Heap) (norm b : Nat) (hbn : b ≠ norm) :
    hget (list_defaults_step h norm) b = hget h b :=
  hget_hmodify_ne _ _ _ _ (Ne.symm hbn)

theorem list_defaults_step_length (h : Heap) (norm : Nat) :
    (list_defaults_step h norm).length = h.length :=
  length_hmodify _ _ _

theorem addDefaultDict_hget_ne (h : Heap) (norm b : Nat) (key : String)
    (hbn : b ≠ norm) (hb : b < h.length) :
    hget (addDefaultDict h norm key) b = hget h b := by
  unfold addDefaultDict
  split
  · rfl
  · dsimp only [halloc]
    rw [hget_hset_ne _ _ _ _ (Ne.symm hbn), hget_halloc _ _ _ hb]

theorem addDefaultDict_length_ge (h : Heap) (norm : Nat) (key : String) :
    h.length ≤ (addDefaultDict h norm key).length := by
  unfold addDefaultDict
  split
  · exact Nat.le_refl _
  · dsimp only [halloc]
    rw [length_hset]
    simp

theorem labs_rounding_hget_ne (h : Heap) (norm b : Nat)
    (hlabs : ∀ la, dget (hget h norm) "labs" = some (.ref la) → la ≠ b)
    (hlip : ∀ la lp, dget (hget h norm) "labs" = some (.ref la) →
        dget (hget h la) "lipids" = some (.ref lp) → lp ≠ b) :
    hget (labs_rounding h norm) b = hget h b := by
  unfold labs_rounding
  dsimp only
  split
  case isFalse => rfl
  case isTrue hd =>
    cases hv : dget (hget h norm) "labs" with
    | none => simp only [hv, Option.getD_none]
    | some v =>
        simp only [hv, Option.getD_some]
        cases v with
        | none_ => rfl
        | num q => rfl
        | str s => rfl
        | listv l => rfl
        | ref la =>
            have hla : la ≠ b := hlabs la hv
            have hlipval : dget (hget (hmodify h la (fun labs =>
                roundField (roundField (roundField labs "hba1c_pct") "fpg_mmol")
                  "ppg2h_mmol")) la) "lipids" = dget (hget h la) "lipids" := by
              by_cases hlt : la < h.length
              · rw [hget_hmodify_self _ _ _ hlt]
                rw [dget_roundField_ne _ _ _ (by decide),
                  dget_roundField_ne _ _ _ (by decide),
                  dget_roundField_ne _ _ _ (by decide)]
              · rw [hmodify_oob _ _ _ (Nat.le_of_not_lt hlt)]
            dsimp only
            split
            case isFalse =>
              exact hget_hmodify_ne _ _ _ _ hla
            case isTrue hd2 =>
              cases hv2 : dget (hget (hmodify h la _) la) "lipids" with
              | none =>
                  simp only [hv2, Option.getD_none]
                  exact hget_hmodify_ne _ _ _ _ hla
              | some w =>
                  simp only [hv2, Option.getD_some]
                  cases w with
                  | none_ => exact hget_hmodify_ne _ _ _ _ hla
                  | num q => exact hget_hmodify_ne _ _ _ _ hla
                  | str s => exact hget_hmodify_ne _ _ _ _ hla
                  | listv l => exact hget_hmodify_ne _ _ _ _ hla
                  | ref lp =>
                      have hlp : lp ≠ b := by
                        refine hlip la lp hv ?_
                        rw [← hlipval]
                        exact hv2
                      rw [hget_hmodify_ne _ _ _ _ hlp,
                        hget_hmodify_ne _ _ _ _ hla]

theorem labs_rounding_length (h : Heap) (norm : Nat) :
    (labs_rounding h norm).length = h.length := by
  unfold labs_rounding
  dsimp only
  split
  case isFalse => rfl
  case isTrue hd =>
    cases hv : dget (hget h norm) "labs" with
    | none => simp only [hv, Option.getD_none]
    | some v =>
        simp only [hv, Option.getD_some]
        cases v with
        | none_ => rfl
        | num q => rfl
        | str s => rfl
        | listv l => rfl
        | ref la =>
            dsimp only
            split
            case isFalse => exact length_hmodify _ _ _
            case isTrue hd2 =>
              cases hv2 : dget (hget (hmodify h la _) la) "lipids" with
              | none =>
                  simp only [hv2, Option.getD_none]
                  exact length_hmodify _ _ _
              | some w =>
                  simp only [hv2, Option.getD_some]
                  cases w <;>
                    simp only [length_hmodify]

/-- `normalize_patient_data` leaves every address other than the fresh copy
and the nested `labs`/`lipids` targets untouched. -/
theorem normalize_patient_data_frame (h : Heap) (raw b : Nat) (hb : b < h.length)
    (hlabs : ∀ la, dget (hget h raw) "labs" = some (.ref la) →
        la ≠ b ∧ la < h.length)
    (hlip : ∀ la lp, dget (hget h raw) "labs" = some (.ref la) →
        dget (hget h la) "lipids" = some (.ref lp) → lp ≠ b) :
    hget (normalize_patient_data h raw).1 b = hget h b ∧
      (normalize_patient_data h raw).2 = h.length := by
  refine ⟨?_, rfl⟩
  unfold normalize_patient_data
  dsimp only [halloc]
  have hbn : b ≠ h.length := Nat.ne_of_lt hb
  -- heap after the copy allocation
  have hlen0 : (h ++ [hget h raw]).length = h.length + 1 := by simp
  have hn0 : h.length < (h ++ [hget h raw]).length := by simp
  have hcopy : hget (h ++ [hget h raw]) h.length = hget h raw :=
    hget_halloc_self _ _
  -- heap after the BMI step
  have hlen1 : (bmi_step (h ++ [hget h raw]) h.length).length = h.length + 1 := by
    rw [bmi_step_length, hlen0]
  have hlabs1 : ∀ la,
      dget (hget (bmi_step (h ++ [hget h raw]) h.length) h.length) "labs" =
        some (.ref la) → la ≠ b ∧ la < h.length := by
    intro la hla
    rw [dget_bmi_step_self _ _ _ hn0 (by decide), hcopy] at hla
    exact hlabs la hla
  have hb1 : ∀ a, a < h.length →
      hget (bmi_step (h ++ [hget h raw]) h.length) a = hget h a := by
    intro a ha
    rw [bmi_step_hget_ne _ _ _ (Nat.ne_of_lt ha), hget_halloc _ _ _ ha]
  -- heap after the labs rounding
  have hlr : hget (labs_rounding (bmi_step (h ++ [hget h raw]) h.length)
      h.length) b = hget h b := by
    rw [labs_rounding_hget_ne _ _ _
      (fun la hla => (hlabs1 la hla).1)
      (fun la lp hla hlp => by
        obtain ⟨hne, hlt⟩ := hlabs1 la hla
        rw [hb1 la hlt] at hlp
        rw [dget_bmi_step_self _ _ _ hn0 (by decide), hcopy] at hla
        exact hlip la lp hla hlp)]
    exact hb1 b hb
  have hlen2 : (labs_rounding (bmi_step (h ++ [hget h raw]) h.length)
      h.length).length = h.length + 1 := by
    rw [labs_rounding_length, hlen1]
  -- remaining steps only touch the fresh copy or extend the heap
  rw [addDefaultDict_hget_ne _ _ _ _ hbn
        (by
          refine Nat.lt_of_lt_of_le ?_ (addDefaultDict_length_ge _ _ _)
          refine Nat.lt_of_lt_of_le ?_ (addDefaultDict_length_ge _ _ _)
          rw [list_defaults_step_length, bp_step_length, hlen2]
          exact Nat.lt_succ_of_lt hb),
      addDefaultDict_hget_ne _ _ _ _ hbn
        (by
          refine Nat.lt_of_lt_of_le ?_ (addDefaultDict_length_ge _ _ _)
          rw [list_defaults_step_length, bp_step_length, hlen2]
          exact Nat.lt_succ_of_lt hb),
      addDefaultDict_hget_ne _ _ _ _ hbn
        (by
          rw [list_defaults_step_length, bp_step_length, hlen2]
          exact Nat.lt_succ_of_lt hb),
      list_defaults_step_hget_ne _ _ _ hbn,
      bp_step_hget_ne _ _ _ hbn]
  exact hlr

theorem merge_fold_hget_ne (merged : Nat) (pdf conflicts : Dict) :
    ∀ (l : List (String × PVal)) (h : Heap) (b : Nat), b ≠ merged →
      hget (l.foldl (merge_step merged pdf conflicts) h) b = hget h b := by
  intro l
  induction l with
  | nil => intro h b _; rfl
  | cons kv rest ih =>
      intro h b hb
      rw [List.foldl_cons, ih _ _ hb, merge_step_hget_ne _ _ _ _ _ _ hb]

/-- The heap and the address of the merged dict right after the
conflict-resolution loop of `merge_data_sources` (before normalization). -/
def mergedAfterLoop (h : Heap) (formAddr pdfAddr : Nat) (conflicts : Dict) :
    Heap × Nat :=
  let (h1, merged) := halloc h (hget h formAddr)
  (merge_loop h1 merged (hget h1 pdfAddr) conflicts, merged)

theorem merge_data_sources_decompose (h : Heap) (formAddr pdfAddr : Nat)
    (conflicts : Dict) :
    merge_data_sources h formAddr pdfAddr conflicts =
      normalize_patient_data (mergedAfterLoop h formAddr pdfAddr conflicts).1
        (mergedAfterLoop h formAddr pdfAddr conflicts).2 := rfl

theorem mergedAfterLoop_length (h : Heap) (fa pa : Nat) (conflicts : Dict) :
    (mergedAfterLoop h fa pa conflicts).1.length = h.length + 1 := by
  unfold mergedAfterLoop merge_loop
  dsimp only [halloc]
  rw [merge_fold_length]
  simp

theorem mergedAfterLoop_hget (h : Heap) (fa pa : Nat) (conflicts : Dict)
    (b : Nat) (hb : b < h.length) :
    hget (mergedAfterLoop h fa pa conflicts).1 b = hget h b := by
  unfold mergedAfterLoop merge_loop
  dsimp only [halloc]
  rw [merge_fold_hget_ne _ _ _ _ _ _ (Nat.ne_of_lt hb), hget_halloc _ _ _ hb]

/-- C6 counterexample: `merge_data_sources` is not pure.  With
`form_data = {labs: {hba1c_pct: 8.34}}` (the nested labs dict living at heap
address 1), empty PDF data and no conflicts, the call mutates the caller's
nested labs dict in place: the subsequent normalization step's rounding
changes `form_data['labs']['hba1c_pct']` from `8.34` to `8.3`. -/
theorem C6_merge_not_pure_counterexample :
    hget ([[("labs", PVal.ref 1)], [("hba1c_pct", PVal.num (417/50))], []] : Heap)
      1 = [("hba1c_pct", PVal.num (417/50))] ∧
    hget (merge_data_sources
      [[("labs", PVal.ref 1)], [("hba1c_pct", PVal.num (417/50))], []] 0 2 []).1
      1 = [("hba1c_pct", PVal.num (83/10))] ∧
    (417/50 : ℚ) ≠ 83/10 := by
  refine ⟨by with_unfolding_all rfl, by with_unfolding_all rfl, by norm_num⟩

/-- C6 (amended): `merge_data_sources` returns a freshly allocated record
(address `h.length + 1`, distinct from both arguments) and never rebinds the
top-level `form_data` or `pdf_data` dicts; however, because it takes shallow
copies, the nested `labs`/`lipids` dicts reachable from the merged record
are rounded in place, so the top-level dicts are only preserved when those
nested references do not point back at them (hypotheses `hlabs`, `hlip`) —
in general the call is not pure. -/
theorem C6_merge_top_level_frame (h : Heap) (fa pa : Nat) (conflicts : Dict)
    (hfa : fa < h.length) (hpa : pa < h.length)
    (hlabs : ∀ la, dget (hget (mergedAfterLoop h fa pa conflicts).1 h.length)
        "labs" = some (.ref la) → la ≠ fa ∧ la ≠ pa ∧ la < h.length)
    (hlip : ∀ la lp, dget (hget (mergedAfterLoop h fa pa conflicts).1 h.length)
          "labs" = some (.ref la) →
        dget (hget (mergedAfterLoop h fa pa conflicts).1 la) "lipids" =
          some (.ref lp) → lp ≠ fa ∧ lp ≠ pa) :
    hget (merge_data_sources h fa pa conflicts).1 fa = hget h fa ∧
    hget (merge_data_sources h fa pa conflicts).1 pa = hget h pa ∧
    (merge_data_sources h fa pa conflicts).2 = h.length + 1 ∧
    (merge_data_sources h fa pa conflicts).2 ≠ fa ∧
    (merge_data_sources h fa pa conflicts).2 ≠ pa := by
  have hM : (mergedAfterLoop h fa pa conflicts).2 = h.length := rfl
  have frame : ∀ b, b < h.length →
      (∀ la, dget (hget (mergedAfterLoop h fa pa conflicts).1 h.length)
          "labs" = some (.ref la) → la ≠ b ∧ la < h.length) →
      (∀ la lp, dget (hget (mergedAfterLoop h fa pa conflicts).1 h.length)
            "labs" = some (.ref la) →
          dget (hget (mergedAfterLoop h fa pa conflicts).1 la) "lipids" =
            some (.ref lp) → lp ≠ b) →
      hget (merge_data_sources h fa pa conflicts).1 b = hget h b := by
    intro b hb hlabsb hlipb
    rw [merge_data_sources_decompose, hM]
    have := (normalize_patient_data_frame (mergedAfterLoop h fa pa conflicts).1
      h.length b
      (by rw [mergedAfterLoop_length]; exact Nat.lt_succ_of_lt hb)
      (fun la hla => ⟨(hlabsb la hla).1,
        by rw [mergedAfterLoop_length]; exact Nat.lt_succ_of_lt (hlabsb la hla).2⟩)
      hlipb).1
    rw [this, mergedAfterLoop_hget _ _ _ _ _ hb]
  refine ⟨frame fa hfa
      (fun la hla => ⟨(hlabs la hla).1, (hlabs la hla).2.2⟩)
      (fun la lp hla hlp => (hlip la lp hla hlp).1),
    frame pa hpa
      (fun la hla => ⟨(hlabs la hla).2.1, (hlabs la hla).2.2⟩)
      (fun la lp hla hlp => (hlip la lp hla hlp).2), ?_, ?_, ?_⟩
  · have h2 : (merge_data_sources h fa pa conflicts).2 =
        (mergedAfterLoop h fa pa conflicts).1.length := rfl
    rw [h2, mergedAfterLoop_length]
  · have h2 : (merge_data_sources h fa pa conflicts).2 =
        (mergedAfterLoop h fa pa conflicts).1.length := rfl
    rw [h2, mergedAfterLoop_length]
    omega
  · have h2 : (merge_data_sources h fa pa conflicts).2 =
        (mergedAfterLoop h fa pa conflicts).1.length := rfl
    rw [h2, mergedAfterLoop_length]
    omega

/-- Witness for C6 (amended): on a form dict with no nested labs reference,
both argument dicts survive `merge_data_sources` unchanged. -/
theorem C6_merge_top_level_frame_witness :
    hget (merge_data_sources [[("x", PVal.num 1)], []] 0 1 []).1 0 =
      [("x", PVal.num 1)] ∧
    hget (merge_data_sources [[("x", PVal.num 1)], []] 0 1 []).1 1 = [] := by
  have hnone : dget (hget (mergedAfterLoop [[("x", PVal.num 1)], []] 0 1 []).1
      (List.length ([[("x", PVal.num 1)], []] : Heap))) "labs" = none := by
    with_unfolding_all rfl
  have h := C6_merge_top_level_frame [[("x", PVal.num 1)], []] 0 1 []
    (by decide) (by decide)
    (fun la hla => Option.noConfusion (hnone.symm.trans hla))
    (fun la lp hla hlp => Option.noConfusion (hnone.symm.trans hla))
  have h0 : hget ([[("x", PVal.num 1)], []] : Heap) 0 = [("x", PVal.num 1)] := rfl
  have h1 : hget ([[("x", PVal.num 1)], []] : Heap) 1 = [] := rfl
  exact ⟨h.1.trans h0, h.2.1.trans h1⟩

/-! ## C3 — bounded retry with error accumulation and feedback -/

theorem gen_attempts_all_fail (llm : Nat → Option String → Except String ReportOut)
    (snippets : List RetrievalResult) (maxR : Nat) :
    ∀ (m a : Nat) (errors : List String), a + m = maxR + 1 → 0 < m →
      (∀ i, a ≤ i → i ≤ maxR → ∃ e, llm i (chainErr llm i) = .error e) →
      gen_attempts llm snippets maxR (List.range' a m) (chainErr llm a) errors =
        (none, errors ++ (List.range' a m).map (attemptMsg llm)) := by
  intro m
  induction m with
  | zero => intro a errors _ hm; exact absurd hm (by omega)
  | succ m2 ih =>
      intro a errors hsum _ hfail
      obtain ⟨e, he⟩ := hfail a (Nat.le_refl a) (by omega)
      rw [List.range'_succ]
      unfold gen_attempts
      rw [he]
      have hmsg : attemptMsg llm a = "Attempt " ++ toString (a + 1) ++ " failed: " ++ e := by
        unfold attemptMsg errAt
        rw [he]
      by_cases ham : a = maxR
      · have hm2 : m2 = 0 := by omega
        subst hm2 ham
        simp [List.range'_one, hmsg]
      · have hbeq : (a == maxR) = false := by simp [ham]
        rw [hbeq]
        dsimp only [Bool.false_eq_true, if_false]
        have hchain : some e = chainErr llm (a + 1) := by
          unfold chainErr
          rw [he]
        rw [hchain, ih (a + 1) (errors ++ ["Attempt " ++ toString (a + 1) ++ " failed: " ++ e])
          (by omega) (by omega)
          (fun i hi1 hi2 => hfail i (by omega) hi2)]
        simp [hmsg]

theorem gen_attempts_first_success
    (llm : Nat → Option String → Except String ReportOut)
    (snippets : List RetrievalResult) (maxR : Nat) (r : ReportOut) :
    ∀ (m a : Nat) (k : Nat) (errors : List String), a + m = maxR + 1 →
      a ≤ k → k ≤ maxR →
      (∀ i, a ≤ i → i < k → ∃ e, llm i (chainErr llm i) = .error e) →
      llm k (chainErr llm k) = .ok r →
      gen_attempts llm snippets maxR (List.range' a m) (chainErr llm a) errors =
        (some r,
          if validate_citations r snippets then
            errors ++ (List.range' a (k - a)).map (attemptMsg llm)
          else (errors ++ (List.range' a (k - a)).map (attemptMsg llm)) ++
            ["Some citations are invalid"]) := by
  intro m
  induction m with
  | zero => intro a k errors hsum hak hkm; exact absurd hsum (by omega)
  | succ m2 ih =>
      intro a k errors hsum hak hkm hfail hok
      rw [List.range'_succ]
      by_cases heq : a = k
      · subst heq
        unfold gen_attempts
        rw [hok]
        simp only [Nat.sub_self, List.range'_zero, List.map_nil, List.append_nil]
      · have hlt : a < k := Nat.lt_of_le_of_ne hak heq
        obtain ⟨e, he⟩ := hfail a (Nat.le_refl a) hlt
        unfold gen_attempts
        rw [he]
        have hbeq : (a == maxR) = false := by
          simp only [beq_eq_false_iff_ne, ne_eq]
          omega
        rw [hbeq]
        dsimp only [Bool.false_eq_true, if_false]
        have hchain : some e = chainErr llm (a + 1) := by
          unfold chainErr
          rw [he]
        have hmsg : attemptMsg llm a =
            "Attempt " ++ toString (a + 1) ++ " failed: " ++ e := by
          unfold attemptMsg errAt
          rw [he]
        rw [hchain, ih (a + 1) k
          (errors ++ ["Attempt " ++ toString (a + 1) ++ " failed: " ++ e])
          (by omega) (by omega) hkm
          (fun i hi1 hi2 => hfail i (by omega) hi2) hok]
        have hrange : List.range' a (k - a) =
            a :: List.range' (a + 1) (k - (a + 1)) := by
          have : k - a = (k - (a + 1)) + 1 := by omega
          rw [this, List.range'_succ]
        rw [hrange]
        simp [hmsg]

/-- The report of Scenario E (no citations anywhere, so citation validation
succeeds against an empty retrieval set). -/
def scenarioReport : ReportOut :=
  ⟨"summary", [], [], [], "note", []⟩

/-- The generation oracle of Scenario E: attempt 1 returns malformed output
(parse error), and a later attempt succeeds only when the corrective
`previous_error` context from attempt 1 is present. -/
def scenarioOracle : Nat → Option String → Except String ReportOut
  | 0, _ => .error "parse error"
  | _ + 1, some prev =>
      if prev == "parse error" then .ok scenarioReport
      else .error "feedback missing"
  | _ + 1, none => .error "feedback missing"

/-- C3: `generate_report` retries a failed attempt at most `max_retries`
additional times, feeding the previous attempt's error into the next
request and appending each attempt's message to the error list: (1) if every
attempt up to the budget fails, the call returns `(None, errors)` — one
message per attempt, in order — rather than raising; (2) if the first
success is attempt `k` within the budget, the accepted report is returned
together with the error messages of all earlier failed attempts; (3) an
exception before the retry loop is converted into
`(None, ["Report generation failed: …"])`; (4) Scenario E: malformed output
on attempt 1 and valid output on attempt 2 under `max_retries = 1` (the
success contingent on the corrective feedback) yields the accepted report
with attempt 1's message in the error list. -/
theorem C3_generate_report_retry :
    (∀ (llm : Nat → Option String → Except String ReportOut)
        (snippets : List RetrievalResult) (maxR : Nat),
      (∀ i, i ≤ maxR → ∃ e, llm i (chainErr llm i) = .error e) →
      generate_report (.ok snippets) llm maxR =
        (none, (List.range (maxR + 1)).map (attemptMsg llm))) ∧
    (∀ (llm : Nat → Option String → Except String ReportOut)
        (snippets : List RetrievalResult) (maxR k : Nat) (r : ReportOut),
      k ≤ maxR →
      (∀ i, i < k → ∃ e, llm i (chainErr llm i) = .error e) →
      llm k (chainErr llm k) = .ok r →
      validate_citations r snippets = true →
      generate_report (.ok snippets) llm maxR =
        (some r, (List.range k).map (attemptMsg llm))) ∧
    (∀ (llm : Nat → Option String → Except String ReportOut) (e : String),
      generate_report (.error e) llm 1 =
        (none, ["Report generation failed: " ++ e])) ∧
    generate_report (.ok []) scenarioOracle 1 =
      (some scenarioReport, ["Attempt 1 failed: parse error"]) := by
  refine ⟨?_, ?_, fun llm e => rfl, by with_unfolding_all rfl⟩
  · intro llm snippets maxR hfail
    unfold generate_report
    dsimp only
    rw [List.range_eq_range']
    have h0 : (none : Option String) = chainErr llm 0 := rfl
    rw [h0, gen_attempts_all_fail llm snippets maxR (maxR + 1) 0 [] (by omega)
      (by omega) (fun i _ hi => hfail i hi)]
    simp
  · intro llm snippets maxR k r hk hfail hok hval
    unfold generate_report
    dsimp only
    rw [List.range_eq_range']
    have h0 : (none : Option String) = chainErr llm 0 := rfl
    rw [h0, gen_attempts_first_success llm snippets maxR r (maxR + 1) 0 k []
      (by omega) (by omega) hk (fun i _ hi => hfail i hi) hok]
    simp [hval, List.range_eq_range']

/-- Witness for C3: a concrete all-fail run under `max_retries = 1` returns
no report and both attempts' error messages. -/
theorem C3_generate_report_retry_witness :
    generate_report (.ok []) (fun _ _ => .error "boom") 1 =
      (none, ["Attempt 1 failed: boom", "Attempt 2 failed: boom"]) := by
  have h := C3_generate_report_retry.1 (fun _ _ => .error "boom") [] 1
    (fun i _ => ⟨"boom", rfl⟩)
  rw [h]
  with_unfolding_all rfl

/-! ## C4 / C10 — retrieval: ordering, clamping, silent failure -/

/-- The number of indexed vectors (`index.ntotal`; `0` when no index is
loaded). -/
def indexSize : Option (List (List ℚ)) → Nat
  | none => 0
  | some vecs => vecs.length

theorem searchIP_pairwise (vecs : List (List ℚ)) (q : List ℚ) (k : Nat) :
    (searchIP vecs q k).Pairwise (fun a b => b.1 ≤ a.1) := by
  unfold searchIP
  refine List.Pairwise.sublist (List.take_sublist _ _) ?_
  have h := @List.sorted_mergeSort (ℚ × Nat)
    (fun a b => decide (b.1 ≤ a.1))
    (fun a b c h1 h2 => by
      simp only [decide_eq_true_eq] at h1 h2 ⊢
      exact le_trans h2 h1)
    (fun a b => by
      simp only [Bool.or_eq_true, decide_eq_true_eq]
      exact le_total b.1 a.1)
    ((vecs.enum.map (fun p => (ipScore q p.2, p.1))))
  exact h.imp (fun hab => by simpa using hab)

theorem searchIP_length (vecs : List (List ℚ)) (q : List ℚ) (k : Nat) :
    (searchIP vecs q k).length ≤ k := by
  unfold searchIP
  simp

/-- C4: `retrieve` returns results sorted by non-increasing relevance score,
of length at most `min k (index size)`, and returns `[]` (without raising)
for `k = 0` and for an index holding zero vectors. -/
theorem C4_retrieve_sorted_and_clamped :
    (∀ (index : Option (List (List ℚ))) (metadata : List SnippetMeta)
        (embedding : Except String (List ℚ)) (k : Nat),
      (retrieve index metadata embedding k).Pairwise
        (fun x y => y.relevance_score ≤ x.relevance_score)) ∧
    (∀ (index : Option (List (List ℚ))) (metadata : List SnippetMeta)
        (embedding : Except String (List ℚ)) (k : Nat),
      (retrieve index metadata embedding k).length ≤ min k (indexSize index)) ∧
    (∀ (index : Option (List (List ℚ))) (metadata : List SnippetMeta)
        (embedding : Except String (List ℚ)),
      retrieve index metadata embedding 0 = []) ∧
    (∀ (metadata : List SnippetMeta) (embedding : Except String (List ℚ))
        (k : Nat),
      retrieve (some []) metadata embedding k = []) := by
  refine ⟨?_, ?_, ?_, ?_⟩
  · intro index metadata embedding k
    unfold retrieve
    match index with
    | none => simp
    | some vecs =>
        match embedding with
        | .error e => simp
        | .ok emb =>
            dsimp only
            generalize (if vecs.length > 0 then min k vecs.length else 0) = k2
            by_cases hc : (k2 == 0) = true
            · rw [if_pos hc]
              exact List.Pairwise.nil
            · rw [if_neg hc]
              refine List.Pairwise.filterMap _ ?_ (searchIP_pairwise vecs emb _)
              intro a b hab x hx y hy
              cases hma : metadata.get? a.2 with
              | none => rw [hma] at hx; cases hx
              | some ma =>
                  rw [hma] at hx
                  cases hmb : metadata.get? b.2 with
                  | none => rw [hmb] at hy; cases hy
                  | some mb =>
                      rw [hmb] at hy
                      cases hx
                      cases hy
                      exact hab
  · intro index metadata embedding k
    unfold retrieve
    match index with
    | none => simp [indexSize]
    | some vecs =>
        match embedding with
        | .error e => simp
        | .ok emb =>
            dsimp only
            generalize hk2 : (if vecs.length > 0 then min k vecs.length else 0) = k2
            have hbound : k2 ≤ min k vecs.length := by
              by_cases hpos : vecs.length > 0
              · rw [if_pos hpos] at hk2
                omega
              · rw [if_neg hpos] at hk2
                omega
            by_cases hc : (k2 == 0) = true
            · rw [if_pos hc]
              simp
            · rw [if_neg hc]
              refine le_trans (List.length_filterMap_le _ _) ?_
              refine le_trans (searchIP_length _ _ _) ?_
              simpa [indexSize] using hbound
  · intro index metadata embedding
    unfold retrieve
    match index with
    | none => rfl
    | some vecs =>
        match embedding with
        | .error e => rfl
        | .ok emb => simp
  · intro metadata embedding k
    unfold retrieve
    match embedding with
    | .error e => rfl
    | .ok emb => simp

/-- C10: `retrieve` never raises to its caller — with no index loaded, or
with a failing embedding call, it returns the empty list, so generation
proceeds with zero retrieved passages. -/
theorem C10_retrieve_silent_on_failure :
    (∀ (metadata : List SnippetMeta) (embedding : Except String (List ℚ))
        (k : Nat),
      retrieve none metadata embedding k = []) ∧
    (∀ (vecs : List (List ℚ)) (metadata : List SnippetMeta) (e : String)
        (k : Nat),
      retrieve (some vecs) metadata (.error e) k = []) := by
  exact ⟨fun _ _ _ => rfl, fun _ _ _ _ => rfl⟩

/-! ## C9 — query construction -/

theorem pyJoin_cons_of_ne_nil (s a : String) (l : List String) (hl : l ≠ []) :
    pyJoin s (a :: l) = a ++ s ++ pyJoin s l := by
  cases l with
  | nil => exact absurd rfl hl
  | cons b t => rfl

theorem pyJoin_ends_with (c : String) (hc : c ≠ "") :
    ∀ parts : List String,
      (∃ pre, pyJoin " " (parts ++ [c]) = pre ++ c) ∧
        pyJoin " " (parts ++ [c]) ≠ "" := by
  intro parts
  induction parts with
  | nil =>
      refine ⟨⟨"", by simp [pyJoin]⟩, by simpa [pyJoin] using hc⟩
  | cons a rest ih =>
      rw [List.cons_append, pyJoin_cons_of_ne_nil _ _ _ (by simp)]
      obtain ⟨⟨pre, hpre⟩, hne⟩ := ih
      refine ⟨⟨a ++ " " ++ pre, by rw [hpre]; simp [String.append_assoc]⟩, ?_⟩
      intro hbad
      have hlen := congrArg String.length hbad
      rw [String.length_append, String.length_append] at hlen
      have hsp : (" " : String).length = 1 := rfl
      have hemp : ("" : String).length = 0 := rfl
      rw [hsp, hemp] at hlen
      omega

theorem query_ok_branch_shape (P : List String) (q : String)
    (h : (if (pyJoin " " (P ++ ["screening retinopathy kidney foot"]) == "") = true
        then "diabetes management guidelines"
        else pyJoin " " (P ++ ["screening retinopathy kidney foot"])) = q) :
    (∃ pre, q = pre ++ "screening retinopathy kidney foot") ∧ q ≠ "" := by
  obtain ⟨⟨pre, hpre⟩, hne⟩ :=
    pyJoin_ends_with "screening retinopathy kidney foot" (by decide) P
  have hbe : (pyJoin " " (P ++ ["screening retinopathy kidney foot"]) == "") = false := by
    simpa using hne
  rw [hbe] at h
  simp only [Bool.false_eq_true, if_false] at h
  subst h
  exact ⟨⟨pre, hpre⟩, hne⟩

/-- C9 counterexample: with no clinical signals at all, the query is exactly
the constant annual-screening phrase, not the generic fallback string the
claim names — the fallback branch is unreachable because the screening
phrase is always appended first. -/
theorem C9_fallback_dead_counterexample :
    build_retrieval_query [] = .ok "screening retinopathy kidney foot" ∧
    "screening retinopathy kidney foot" ≠ "diabetes management guidelines" := by
  exact ⟨by with_unfolding_all rfl, by decide⟩

/-- C9 (amended): whenever `build_retrieval_query` returns (it raises
`TypeError` when `hypos_90d` is `None`, the `PatientIntake` default), the
query ends with the constant annual-screening phrase and is never empty;
with no signals present the result is exactly that phrase — the generic
fallback branch is dead code. -/
theorem C9_query_always_screening_suffix :
    (∀ (pd : List (String × JVal)) (q : String),
        build_retrieval_query pd = .ok q →
        (∃ pre, q = pre ++ "screening retinopathy kidney foot") ∧ q ≠ "") ∧
    build_retrieval_query [] = .ok "screening retinopathy kidney foot" ∧
    build_retrieval_query [("hypos_90d", JVal.null)] =
      .error "TypeError: '>' not supported between instances of 'NoneType' and 'int'" := by
  refine ⟨?_, by with_unfolding_all rfl, by with_unfolding_all rfl⟩
  intro pd q hq
  unfold build_retrieval_query at hq
  cases h1 : (jget pd "labs").getD (.obj []) <;> rw [h1] at hq <;>
    dsimp only at hq
  case null => cases hq
  case bool b => cases hq
  case num n => cases hq
  case str s => cases hq
  case arr l => cases hq
  case obj labs =>
    cases h2 : pyGtZero ((jget pd "hypos_90d").getD (.num 0)) <;>
      rw [h2] at hq <;> dsimp only at hq
    case error e => cases hq
    case ok hyposPos =>
      cases h3 : (jget pd "meds").getD (.arr []) <;> rw [h3] at hq <;>
        dsimp only at hq
      case null => cases hq
      case bool b => cases hq
      case num n => cases hq
      case str s => cases hq
      case obj o => cases hq
      case arr meds =>
        cases h4 : anyInsulin meds <;> rw [h4] at hq <;> dsimp only at hq
        case error e => cases hq
        case ok ins =>
          injection hq with hq2
          exact query_ok_branch_shape _ _ hq2

/-- Witness for C9 (amended): a patient dict carrying only a diabetes type
yields a nonempty query ending in the annual-screening phrase. -/
theorem C9_query_always_screening_suffix_witness :
    (∃ pre, "T1DM diabetes screening retinopathy kidney foot" =
      pre ++ "screening retinopathy kidney foot") ∧
    "T1DM diabetes screening retinopathy kidney foot" ≠ "" := by
  exact C9_query_always_screening_suffix.1 [("diabetes_type", JVal.str "T1DM")]
    "T1DM diabetes screening retinopathy kidney foot" (by with_unfolding_all rfl)

/-! ## C5 — index build: consistency and (non-)atomicity -/

theorem mapM_except_ok_length {α β : Type} (f : α → Except String β) :
    ∀ (l : List α) (v : List β), l.mapM f = .ok v → v.length = l.length := by
  intro l
  induction l with
  | nil =>
      intro v h
      simp only [List.mapM_nil, pure, Except.pure, Except.ok.injEq] at h
      subst h
      rfl
  | cons a rest ih =>
      intro v h
      rw [List.mapM_cons] at h
      cases hfa : f a with
      | error e =>
          rw [hfa] at h
          simp [bind, Except.bind] at h
      | ok b =>
          rw [hfa] at h
          cases hrest : rest.mapM f with
          | error e =>
              rw [hrest] at h
              simp [bind, Except.bind] at h
          | ok bs =>
              rw [hrest] at h
              simp only [bind, Except.bind, pure, Except.pure,
                Except.ok.injEq] at h
              subst h
              simp [ih bs hrest]

/-- C5 counterexample: `build_index` is not atomic.  With a one-passage
corpus, a successful embedding call, a successful index write and a failing
metadata write, the call fails but leaves the vector file on disk with no
metadata file beside it. -/
theorem C5_build_index_not_atomic_counterexample :
    (build_index [⟨"g1", "NICE", "sec", "hello world"⟩]
      (fun _ => .ok [1]) true false ⟨none, none⟩).2.vecFile = some [[1]] ∧
    (build_index [⟨"g1", "NICE", "sec", "hello world"⟩]
      (fun _ => .ok [1]) true false ⟨none, none⟩).2.metaFile = none ∧
    (build_index [⟨"g1", "NICE", "sec", "hello world"⟩]
      (fun _ => .ok [1]) true false ⟨none, none⟩).1 =
      .error "metadata write failed" := by
  refine ⟨by with_unfolding_all rfl, by with_unfolding_all rfl,
    by with_unfolding_all rfl⟩

/-- C5 (amended): a successful build leaves a consistent pair — vector file
and metadata file both written, with the vector count equal to the metadata
length; a build that fails before the write phase (empty corpus — which
raises the index-build error — no chunks, embedding failure) writes nothing,
and an index-write failure also leaves the file system unchanged; only a
metadata-write failure after a successful index write can leave a vector
file without its metadata file. -/
theorem C5_build_index_consistency :
    (∀ (g : List Guideline) (e : String → Except String (List ℚ))
        (w1 w2 : Bool) (fs : FS) (v : List (List ℚ)) (m : List SnippetMeta)
        (fsOut : FS),
      build_index g e w1 w2 fs = (.ok (v, m), fsOut) →
      fsOut.vecFile = some v ∧ fsOut.metaFile = some m ∧ v.length = m.length) ∧
    (∀ (e : String → Except String (List ℚ)) (w1 w2 : Bool) (fs : FS),
      build_index [] e w1 w2 fs = (.error "No guidelines found to index", fs)) ∧
    (∀ (g : List Guideline) (e : String → Except String (List ℚ))
        (w1 w2 : Bool) (fs : FS) (msg : String),
      ((chunksAndMeta g).map Prod.fst).mapM e = .error msg →
      build_index g e w1 w2 fs = (.error msg, fs)) ∧
    (∀ (g : List Guideline) (e : String → Except String (List ℚ))
        (w2 : Bool) (fs : FS),
      (build_index g e false w2 fs).2 = fs) := by
  refine ⟨?_, fun e w1 w2 fs => rfl, ?_, ?_⟩
  · intro g e w1 w2 fs v m fsOut h
    unfold build_index at h
    by_cases hg : g.isEmpty
    · rw [if_pos hg] at h
      simp at h
    · rw [if_neg hg] at h
      dsimp only at h
      by_cases hc : ((chunksAndMeta g).map Prod.fst).isEmpty
      · rw [if_pos hc] at h
        simp at h
      · rw [if_neg hc] at h
        cases hemb : ((chunksAndMeta g).map Prod.fst).mapM e with
        | error msg =>
            rw [hemb] at h
            simp at h
        | ok embeddings =>
            rw [hemb] at h
            dsimp only at h
            by_cases hz : (embeddings.length == 0) = true
            · rw [if_pos hz] at h
              simp at h
            · rw [if_neg hz] at h
              cases w1 with
              | false => simp at h
              | true =>
                  simp only [if_true] at h
                  cases w2 with
                  | false => simp at h
                  | true =>
                      simp only [if_true, Prod.mk.injEq, Except.ok.injEq] at h
                      obtain ⟨⟨hv, hm⟩, hfs⟩ := h
                      subst hv hm hfs
                      refine ⟨rfl, rfl, ?_⟩
                      rw [mapM_except_ok_length e _ _ hemb]
                      simp
  · intro g e w1 w2 fs msg hemb
    unfold build_index
    by_cases hg : g.isEmpty
    · exfalso
      have : chunksAndMeta g = [] := by
        rw [List.isEmpty_iff] at hg
        subst hg
        rfl
      rw [this] at hemb
      simp only [List.map_nil, List.mapM_nil, pure, Except.pure] at hemb
      cases hemb
    · rw [if_neg hg]
      dsimp only
      by_cases hc : ((chunksAndMeta g).map Prod.fst).isEmpty
      · exfalso
        rw [List.isEmpty_iff] at hc
        rw [hc] at hemb
        simp only [List.mapM_nil, pure, Except.pure] at hemb
        cases hemb
      · rw [if_neg hc, hemb]
  · intro g e w2 fs
    unfold build_index
    by_cases hg : g.isEmpty
    · rw [if_pos hg]
    · rw [if_neg hg]
      dsimp only
      by_cases hc : ((chunksAndMeta g).map Prod.fst).isEmpty
      · rw [if_pos hc]
      · rw [if_neg hc]
        cases hemb : ((chunksAndMeta g).map Prod.fst).mapM e with
        | error msg => rfl
        | ok embeddings =>
            dsimp only
            by_cases hz : (embeddings.length == 0) = true
            · rw [if_pos hz]
            · rw [if_neg hz]
              rfl

/-- Witness for C5 (amended): a successful build on a one-passage corpus
leaves both files written, with one vector and one metadata entry. -/
theorem C5_build_index_consistency_witness :
    (build_index [⟨"g1", "NICE", "sec", "hello world"⟩]
      (fun _ => .ok [1]) true true ⟨none, none⟩).2.vecFile = some [[1]] ∧
    (build_index [⟨"g1", "NICE", "sec", "hello world"⟩]
      (fun _ => .ok [1]) true true ⟨none, none⟩).2.metaFile =
      some [⟨"g1_chunk_0", "NICE", "sec"⟩] ∧
    ([[(1 : ℚ)]].length = [(⟨"g1_chunk_0", "NICE", "sec"⟩ : SnippetMeta)].length) := by
  have h := C5_build_index_consistency.1 [⟨"g1", "NICE", "sec", "hello world"⟩]
    (fun _ => .ok [1]) true true ⟨none, none⟩ [[1]] [⟨"g1_chunk_0", "NICE", "sec"⟩]
    (build_index [⟨"g1", "NICE", "sec", "hello world"⟩]
      (fun _ => .ok [1]) true true ⟨none, none⟩).2
    (by with_unfolding_all rfl)
  exact ⟨h.1, h.2.1, h.2.2⟩

/-! ## C7 — extraction confidence -/

theorem confidenceFormula_bounds (n : Nat) :
    0 ≤ confidenceFormula n ∧ confidenceFormula n ≤ 1 := by
  unfold confidenceFormula
  constructor
  · refine le_min (by norm_num) ?_
    positivity
  · exact min_le_left _ _

/-- C7: for a well-formed parsed payload, `extract_structured_data` computes
`confidence = min(1, n/15)` where `n = _count_extracted_fields(parsed)`
(the nested lipids mapping itself counts as one field of `labs` when
non-null); the confidence of any extraction result lies in `[0, 1]`; and the
formula is monotone non-decreasing in `n`. -/
theorem C7_extraction_confidence :
    (∀ (jsonParse : String → Except String JVal) (text rt : String)
        (parsed : List (String × JVal)) (n : Nat)
        (labs vitals screenings : List (String × JVal)) (ws : List String),
      text.trim ≠ "" →
      jsonParse rt = .ok (.obj parsed) →
      count_extracted_fields parsed = .ok n →
      jgetObjOr parsed "labs" = .ok labs →
      jgetObjOr parsed "vitals" = .ok vitals →
      jgetObjOr parsed "screenings" = .ok screenings →
      warningsOf parsed = .ok ws →
      (extract_structured_data (.ok rt) jsonParse text).1.confidence =
        confidenceFormula n) ∧
    (∀ (llm : Except String String) (jsonParse : String → Except String JVal)
        (text : String),
      0 ≤ (extract_structured_data llm jsonParse text).1.confidence ∧
        (extract_structured_data llm jsonParse text).1.confidence ≤ 1) ∧
    (∀ m n : Nat, m ≤ n → confidenceFormula m ≤ confidenceFormula n) := by
  refine ⟨?_, ?_, ?_⟩
  · intro jsonParse text rt parsed n labs vitals screenings ws htext hparse
      hcount hlabs hvit hscr hws
    unfold extract_structured_data
    have htb : (text.trim == "") = false := by
      simpa using htext
    rw [htb]
    dsimp only [Bool.false_eq_true, if_false]
    rw [hparse]
    dsimp only
    rw [hcount, hlabs, hvit, hscr, hws]
    simp
  · intro llm jsonParse text
    unfold extract_structured_data
    split
    · exact ⟨by norm_num, by norm_num⟩
    · split
      · exact ⟨by norm_num, by norm_num⟩
      · split
        · exact ⟨by norm_num, by norm_num⟩
        · split
          · split
            · exact confidenceFormula_bounds _
            · exact ⟨by norm_num, by norm_num⟩
            · exact ⟨by norm_num, by norm_num⟩
            · exact ⟨by norm_num, by norm_num⟩
            · exact ⟨by norm_num, by norm_num⟩
            · exact ⟨by norm_num, by norm_num⟩
          · exact ⟨by norm_num, by norm_num⟩
  · intro m n hmn
    unfold confidenceFormula
    refine min_le_min (le_refl 1) ?_
    refine div_le_div_of_nonneg_right ?_ (by norm_num)
    exact_mod_cast hmn

/-- Witness for C7: a payload with two extracted lab fields yields
confidence `min(1, 2/15)`. -/
theorem C7_extraction_confidence_witness :
    (extract_structured_data (.ok "resp")
      (fun _ => .ok (.obj [("labs", .obj [("hba1c_pct", .num 8), ("fpg_mmol", .num 6)])]))
      "some text").1.confidence = confidenceFormula 2 := by
  exact C7_extraction_confidence.1
    (fun _ => .ok (.obj [("labs", .obj [("hba1c_pct", .num 8), ("fpg_mmol", .num 6)])]))
    "some text" "resp" [("labs", .obj [("hba1c_pct", .num 8), ("fpg_mmol", .num 6)])] 2
    [("hba1c_pct", .num 8), ("fpg_mmol", .num 6)] [] []
    []
    (by with_unfolding_all decide) rfl (by with_unfolding_all rfl)
    (by with_unfolding_all rfl) (by with_unfolding_all rfl)
    (by with_unfolding_all rfl) (by with_unfolding_all rfl)

/-! ## C8 — extraction never raises, single shot, scanned-document
short-circuit -/

/-- C8: extraction never raises and is single-shot: (1) empty/whitespace
input returns confidence `0.0` with the explanatory warning and makes no
model call; (2) a first page under 50 stripped characters makes `parse_pdf`
return confidence `0.0` with the looks-scanned warning and no model call;
(3) a JSON parse failure of the model output returns confidence `0.0`
carrying the parse error as a warning after exactly one call; (4) no run of
`extract_structured_data` or `parse_pdf` ever makes more than one model
call. -/
theorem C8_extraction_single_shot :
    (∀ (llm : Except String String) (jsonParse : String → Except String JVal)
        (text : String), text.trim = "" →
      extract_structured_data llm jsonParse text =
        ({ PDFExtraction.default with
            confidence := 0, warnings := ["No text extracted from PDF"] }, 0)) ∧
    (∀ (p : String) (rest : List String) (llm : Except String String)
        (jsonParse : String → Except String JVal),
      p.trim.length < 50 →
      parse_pdf (.ok (p :: rest)) llm jsonParse =
        ({ PDFExtraction.default with
            confidence := 0,
            warnings := ["Document appears to be scanned - OCR not supported"] },
          0)) ∧
    (∀ (rt : String) (jsonParse : String → Except String JVal)
        (text : String) (e : String), text.trim ≠ "" →
      jsonParse rt = .error e →
      extract_structured_data (.ok rt) jsonParse text =
        ({ PDFExtraction.default with
            confidence := 0,
            warnings := ["Failed to parse extraction JSON: " ++ e] }, 1)) ∧
    (∀ (llm : Except String String) (jsonParse : String → Except String JVal)
        (text : String),
      (extract_structured_data llm jsonParse text).2 ≤ 1) ∧
    (∀ (doc : Except String (List String)) (llm : Except String String)
        (jsonParse : String → Except String JVal),
      (parse_pdf doc llm jsonParse).2 ≤ 1) := by
  have hcalls : ∀ (llm : Except String String)
      (jsonParse : String → Except String JVal) (text : String),
      (extract_structured_data llm jsonParse text).2 ≤ 1 := by
    intro llm jsonParse text
    unfold extract_structured_data
    split
    · exact Nat.zero_le 1
    · split
      · exact Nat.le_refl 1
      · split
        · exact Nat.le_refl 1
        · split
          · split <;> exact Nat.le_refl 1
          · exact Nat.le_refl 1
  refine ⟨?_, ?_, ?_, hcalls, ?_⟩
  · intro llm jsonParse text htext
    unfold extract_structured_data
    rw [if_pos (by simpa using htext)]
  · intro p rest llm jsonParse hp
    have hcond : (decide (p.trim.length < 50) && (0 + 1 == 1)) = true := by
      simp [hp]
    unfold parse_pdf extract_text pagesText
    dsimp only
    rw [hcond]
    rfl
  · intro rt jsonParse text e htext hparse
    unfold extract_structured_data
    rw [if_neg (by simpa using htext)]
    dsimp only
    rw [hparse]
  · intro doc llm jsonParse
    rcases hpt : extract_text doc with ⟨pdf_text, meta⟩
    unfold parse_pdf
    rw [hpt]
    dsimp only
    by_cases hb : (pdf_text == "") = true
    · rw [if_pos hb]
      exact Nat.zero_le 1
    · rw [if_neg hb]
      rcases hes : extract_structured_data llm jsonParse pdf_text with ⟨ext, calls⟩
      dsimp only
      have := hcalls llm jsonParse pdf_text
      rw [hes] at this
      exact this

/-- Witness for C8: whitespace-only input short-circuits with no model call,
and a parse failure on real input is a single call with the parse error
warning. -/
theorem C8_extraction_single_shot_witness :
    extract_structured_data (.error "never called") (fun _ => .error "never") "  " =
      ({ PDFExtraction.default with
          confidence := 0, warnings := ["No text extracted from PDF"] }, 0) ∧
    extract_structured_data (.ok "not json") (fun _ => .error "bad JSON") "lab text" =
      ({ PDFExtraction.default with
          confidence := 0,
          warnings := ["Failed to parse extraction JSON: bad JSON"] }, 1) := by
  exact ⟨C8_extraction_single_shot.1 _ _ "  " (by with_unfolding_all decide),
    C8_extraction_single_shot.2.2.1 "not json" _ "lab text" "bad JSON"
      (by with_unfolding_all decide) rfl⟩

end DiabetesReport
